import Mathlib

/-!
Shallow embedding of the deployment-orchestration core of shipatlas/ecs-toolkit:
the task-definition builder (`pkg/task_definitions.go`), the task watcher
(`pkg/tasks.go`), the service updater and watcher (`pkg/services.go`), and the
batch aggregation of `DeployTasks`.  Strings that the code searches and splices
(container image references) are modelled as `List Char`; fields the code never
inspects are modelled as opaque values compared only for equality.
-/

namespace EcsToolkit

/-! ## Image reference strings

Models `strings.Replace(s, old, new, 1)` from the Go standard library and the
tag extraction performed by `dockerparser.Parse(image).Tag()` in
`GenerateTaskDefinition`. -/

/-- Go `strings.Replace(s, old, new, 1)`: replace the first occurrence of
`old` in `s` by `new`; if `old` does not occur, return `s` unchanged (an empty
`old` matches at the start of the string, as in Go). -/
def stringsReplaceOnce (old new : List Char) : List Char → List Char
  | [] => if old.isPrefixOf ([] : List Char) then new else []
  | c :: rest =>
    if old.isPrefixOf (c :: rest) then new ++ (c :: rest).drop old.length
    else c :: stringsReplaceOnce old new rest

/-- Splits an image reference at its tag separator: the colon after which no
further colon and no slash occurs (a colon followed by a slash is a registry
port, not a tag separator).  Returns the part before the colon and the tag. -/
def tagSplit : List Char → Option (List Char × List Char)
  | [] => none
  | c :: rest =>
    if c = ':' ∧ ¬ (':' ∈ rest) ∧ ¬ ('/' ∈ rest) then some ([], rest)
    else (tagSplit rest).map (fun pt => (c :: pt.1, pt.2))

/-- Tag of an image reference as returned by `dockerparser.Parse(image).Tag()`:
the part after the tag separator, or `"latest"` when the reference carries no
tag.  Returns `none` (the parser rejects the reference) on an empty reference
or an empty tag. -/
def dockerImageTag (s : List Char) : Option (List Char) :=
  if s = [] then none
  else
    match tagSplit s with
    | some pt => if pt.2 = [] then none else some pt.2
    | none => some ("latest".toList)

/-- Image rewrite performed for one updatable container in
`GenerateTaskDefinition`: extract the current tag via the docker reference
parser, then replace its first occurrence in the full reference string with
the new tag (`strings.Replace(oldContainerImage, oldContainerImageTag,
newContainerImageTag, 1)`).  Returns the new reference and the old tag. -/
def rewriteTag (image newTag : List Char) : Option (List Char × List Char) :=
  match dockerImageTag image with
  | none => none
  | some oldTag => some (stringsReplaceOnce oldTag newTag image, oldTag)

/-! ## Task definitions and the builder (`pkg/task_definitions.go`) -/

/-- Container definition inside a task-definition revision.  The code reads
only `name` and `image`; every other field is passed through untouched and is
modelled by the opaque `rest`. -/
structure ContainerDefinition where
  name : String
  image : List Char
  rest : String
deriving DecidableEq, Repr

/-- Task-definition revision as returned by `DescribeTaskDefinition`.  The
top-level fields copied verbatim in the register request (cpu, memory, roles,
volumes, placement constraints, network mode, proxy configuration,
compatibilities, runtime platform, ephemeral storage, inference accelerators)
are modelled by the opaque `rest`. -/
structure TaskDefinition where
  family : String
  revision : Nat
  taskDefinitionArn : String
  containerDefinitions : List ContainerDefinition
  tags : List (String × String)
  rest : String
deriving DecidableEq, Repr

/-- Register request built by `GenerateTaskDefinition`: the container list
(possibly with rewritten images), the family, the verbatim-copied top-level
fields, and the tags when the source revision has any. -/
structure RegisterTaskDefinitionInput where
  containerDefinitions : List ContainerDefinition
  family : String
  tags : Option (List (String × String))
  rest : String
deriving DecidableEq, Repr

/-- Input of `GenerateTaskDefinition`: the new image tag, the task-definition
reference to fetch, and the updatable-container map (Go `map[string]bool`
lookup, absent keys read as `false`). -/
structure GenerateTaskDefinitionInput where
  imageTag : List Char
  taskDefinition : String
  updateableContainers : String → Bool

/-- Control-plane calls made by the builder, with possible failures. -/
structure EcsClient where
  describeTaskDefinition : String → Except String TaskDefinition
  registerTaskDefinition : RegisterTaskDefinitionInput → Except String TaskDefinition

/-- Per-container step of the update loop in `GenerateTaskDefinition`: skip a
container that is not on the updatable list; otherwise parse its image
(`logger.Fatalf` on parse failure, modelled as `none`), compute the rewritten
image, skip when the old tag already equals the new tag, and otherwise replace
the image and mark the task definition as updated. -/
def updateContainerImage (updateableContainers : String → Bool) (newTag : List Char)
    (c : ContainerDefinition) : Option (ContainerDefinition × Bool) :=
  if ¬ updateableContainers c.name then some (c, false)
  else
    match dockerImageTag c.image with
    | none => none
    | some oldTag =>
      let newImage := stringsReplaceOnce oldTag newTag c.image
      if oldTag = newTag then some (c, false)
      else some ({ c with image := newImage }, true)

/-- Update loop of `GenerateTaskDefinition` over the container list, in
original order, accumulating the `taskDefinitionUpdated` flag. -/
def updateContainers (updateableContainers : String → Bool) (newTag : List Char) :
    List ContainerDefinition → Option (List ContainerDefinition × Bool)
  | [] => some ([], false)
  | c :: cs =>
    match updateContainerImage updateableContainers newTag c with
    | none => none
    | some (c', b) =>
      match updateContainers updateableContainers newTag cs with
      | none => none
      | some (cs', bs) => some (c' :: cs', b || bs)

/-- Outcome of one run of `GenerateTaskDefinition`.  `fatalExit` models
`logger.Fatalf`, which logs the message and then exits the whole process with
a non-zero status (it does not return to the caller). -/
inductive GenerateOutcome
  | fatalExit (msg : String)
  | noChange
  | registered (td : TaskDefinition)
deriving DecidableEq, Repr

/-- Observable result of a run of `GenerateTaskDefinition`: the outcome,
whether `RegisterTaskDefinition` was called, and the register request sent
when it was. -/
structure GenerateRun where
  outcome : GenerateOutcome
  registerCalled : Bool
  registerRequest : Option RegisterTaskDefinitionInput
deriving DecidableEq, Repr

/-- Builds the register request from a fetched revision: containers, family
and the opaque verbatim-copied fields, with tags only when the source revision
has at least one. -/
def buildRegisterInput (td : TaskDefinition) (cds : List ContainerDefinition) :
    RegisterTaskDefinitionInput :=
  { containerDefinitions := cds
    family := td.family
    tags := if td.tags = [] then none else some td.tags
    rest := td.rest }

/-- Run of `GenerateTaskDefinition` (pkg/task_definitions.go): fetch the source
revision (`logger.Fatalf` on error), copy its fields into a register request,
run the container update loop, return `(nil, false)` without registering when
nothing changed, and otherwise call `RegisterTaskDefinition`
(`logger.Fatalf` on error). -/
def GenerateTaskDefinition (input : GenerateTaskDefinitionInput) (client : EcsClient) :
    GenerateRun :=
  match client.describeTaskDefinition input.taskDefinition with
  | .error e => ⟨.fatalExit e, false, none⟩
  | .ok td =>
    match updateContainers input.updateableContainers input.imageTag td.containerDefinitions with
    | none => ⟨.fatalExit "unable to parse current container image", false, none⟩
    | some (cds, updated) =>
      if updated then
        let req := buildRegisterInput td cds
        match client.registerTaskDefinition req with
        | .error e => ⟨.fatalExit e, true, some req⟩
        | .ok newTd => ⟨.registered newTd, true, some req⟩
      else ⟨.noChange, false, none⟩

/-! ## Task watcher (`pkg/tasks.go`, `watchTask`) -/

/-- Container of a running or stopped task as reported by `DescribeTasks`.
Every field is a nullable pointer in the source. -/
structure EcsContainer where
  name : Option String
  exitCode : Option Int
  reason : Option String
deriving DecidableEq, Repr

/-- Task instance as reported by `DescribeTasks`. -/
structure EcsTask where
  taskArn : String
  lastStatus : String
  desiredStatus : String
  containers : List EcsContainer
  stoppedReason : Option String
deriving DecidableEq, Repr

/-- Loop over a stopped task's containers in `watchTask` computing
`nonZeroExit`: a container counts only when its exit code pointer is non-nil
and the code differs from zero. -/
def taskHasNonZeroExit (containers : List EcsContainer) : Bool :=
  containers.any fun c =>
    match c.exitCode with
    | some code => code ≠ 0
    | none => false

/-- One poll observation of the task watcher: either the `DescribeTasks` call
failed, or it returned a (possibly empty) list of tasks. -/
inductive DescribeTasksPoll
  | failure (msg : String)
  | result (tasks : List EcsTask)
deriving DecidableEq, Repr

/-- Value returned by `watchTask` to its caller: a `DescribeTasks` error, the
"prematurely stopped" error for a stopped task with a non-zero container exit
code, or `nil` (the watcher stopped without error). -/
inductive WatchTaskResult
  | describeError (msg : String)
  | prematurelyStopped
  | completed
deriving DecidableEq, Repr

/-- Predicate on the watcher's return value: anything other than a `nil`
return counts as a failure of the watched task for the caller `deployTask`,
which collects non-nil errors in `taskWatchErrors`. -/
def isWatchFailure : WatchTaskResult → Bool
  | .completed => false
  | _ => true

/-- Poll loop of `watchTask` over a trace of `DescribeTasks` observations:
return the error when the call fails; break and return `nil` when zero tasks
come back ("stopped watching, task not found"); on a task whose last status is
`STOPPED`, return the "prematurely stopped" error when some container has a
non-zero exit code, else break and return `nil`; otherwise keep polling.
`none` means the trace ended before the loop exited. -/
def watchTask : List DescribeTasksPoll → Option WatchTaskResult
  | [] => none
  | p :: rest =>
    match p with
    | .failure e => some (.describeError e)
    | .result [] => some .completed
    | .result (task :: _) =>
      if task.lastStatus = "STOPPED" then
        if taskHasNonZeroExit task.containers then some .prematurelyStopped
        else some .completed
      else watchTask rest

/-! ## Service watcher (`watchService` in the services deployment file) -/

/-- Deployment entry of a service as reported by `DescribeServices`. -/
structure EcsDeployment where
  id : String
  status : String
  rolloutState : String
deriving DecidableEq, Repr

/-- Service instance as reported by `DescribeServices`. -/
structure EcsService where
  serviceName : String
  status : String
  deployments : List EcsDeployment
deriving DecidableEq, Repr

/-- Exit condition of the `watchService` loop: some deployment has status
`PRIMARY` with rollout state `COMPLETED` (`hasCompletedPrimary`), and no
deployment has status `ACTIVE` (`hasActiveDeployment`). -/
def serviceRolloutDone (deps : List EcsDeployment) : Bool :=
  (deps.any fun d => d.status == "PRIMARY" && d.rolloutState == "COMPLETED") &&
    !(deps.any fun d => d.status == "ACTIVE")

/-- One poll observation of the service watcher. -/
inductive DescribeServicesPoll
  | failure (msg : String)
  | result (services : List EcsService)
deriving DecidableEq, Repr

/-- Poll loop of `watchService` over a trace of `DescribeServices`
observations, returning the number of observations consumed when the loop
breaks (`none` when the trace ends with the loop still running).  The loop
breaks on a describe error, on a missing service, or when
`serviceRolloutDone` holds for the service's deployments. -/
def watchService : List DescribeServicesPoll → Option Nat
  | [] => none
  | p :: rest =>
    match p with
    | .failure _ => some 1
    | .result [] => some 1
    | .result (s :: _) =>
      if serviceRolloutDone s.deployments then some 1
      else (watchService rest).map (· + 1)

/-! ## Service update request (`deployService`) -/

/-- Live service configuration read by `deployService` before the update.
Composite fields that are copied wholesale (capacity provider strategy,
deployment configuration, load balancers, network configuration, placement
constraints and strategy, platform version, propagate tags, service
registries) are modelled as opaque values compared for equality. -/
structure EcsServiceProfile where
  serviceName : String
  capacityProviderStrategy : String
  clusterArn : String
  deploymentConfiguration : String
  desiredCount : Int
  enableECSManagedTags : Bool
  enableExecuteCommand : Bool
  healthCheckGracePeriodSeconds : Option Int
  loadBalancers : String
  networkConfiguration : String
  placementConstraints : String
  placementStrategy : String
  platformVersion : String
  propagateTags : String
  serviceRegistries : String
  taskDefinition : String
deriving DecidableEq, Repr

/-- Update request sent to `UpdateService`. -/
structure UpdateServiceInput where
  service : String
  capacityProviderStrategy : String
  cluster : String
  deploymentConfiguration : String
  desiredCount : Int
  enableECSManagedTags : Bool
  enableExecuteCommand : Bool
  forceNewDeployment : Bool
  healthCheckGracePeriodSeconds : Option Int
  loadBalancers : String
  networkConfiguration : String
  placementConstraints : String
  placementStrategy : String
  platformVersion : String
  propagateTags : String
  serviceRegistries : String
  taskDefinition : String
deriving DecidableEq, Repr

/-- Construction of `updateServiceParams` in `deployService`: every field is
copied from the live service profile, `forceNewDeployment` is set only when
the service spec carries a force flag, and the task-definition reference is
the newly registered revision (or the reused reference when nothing changed).
The source sets `EnableExecuteCommand` from `service.EnableECSManagedTags`,
and that assignment is reproduced here exactly as written. -/
def buildUpdateServiceParams (service : EcsServiceProfile) (force : Option Bool)
    (taskDefinition : String) : UpdateServiceInput :=
  { service := service.serviceName
    capacityProviderStrategy := service.capacityProviderStrategy
    cluster := service.clusterArn
    deploymentConfiguration := service.deploymentConfiguration
    desiredCount := service.desiredCount
    enableECSManagedTags := service.enableECSManagedTags
    enableExecuteCommand := service.enableECSManagedTags
    forceNewDeployment := force.getD false
    healthCheckGracePeriodSeconds := service.healthCheckGracePeriodSeconds
    loadBalancers := service.loadBalancers
    networkConfiguration := service.networkConfiguration
    placementConstraints := service.placementConstraints
    placementStrategy := service.placementStrategy
    platformVersion := service.platformVersion
    propagateTags := service.propagateTags
    serviceRegistries := service.serviceRegistries
    taskDefinition := taskDefinition }

/-! ## Batch aggregation (`DeployTasks` in `pkg/tasks.go`) -/

/-- Modelled from the spec: terminal outcome of one deployment unit.  The
`Status` enum with constants `SucceededStatus`, `FailedStatus` and
`SkippedStatus` is referenced by `deployTask` and `DeployTasks` but its
declaration is not among the provided sources; the spec gives the outcome set
{succeeded, failed, skipped} for completed units. -/
inductive Status
  | succeeded
  | failed
  | skipped
deriving DecidableEq, Repr

/-- Counts reported in the per-stage summary line of `DeployTasks`. -/
structure TasksReport where
  total : Int
  successful : Int
  skipped : Int
  failed : Int
deriving DecidableEq, Repr

/-- Aggregation in `DeployTasks` over the per-unit results of `deployTask`
(status plus optional error): `failedCount` counts units that returned an
error with `FailedStatus`, `skippedCount` those with `SkippedStatus`, and
`successfulCount` is computed as `numberOfTasks - (failedCount +
skippedCount)`. -/
def deployTasksReport (results : List (Status × Option String)) : TasksReport :=
  let failedCount : Int := (results.filter fun r => r.2.isSome && r.1 == Status.failed).length
  let skippedCount : Int := (results.filter fun r => r.2.isSome && r.1 == Status.skipped).length
  { total := results.length
    successful := results.length - (failedCount + skippedCount)
    skipped := skippedCount
    failed := failedCount }

/-! ## Concrete sample data for witnesses and counterexamples -/

/-- Sample updatable container of the `app` family. -/
def sampleContainerWeb : ContainerDefinition :=
  ⟨"web", "repo/app:v1".toList, "cpu=256"⟩

/-- Sample non-updatable container of the `app` family. -/
def sampleContainerSidecar : ContainerDefinition :=
  ⟨"sidecar", "repo/side:v9".toList, "cpu=64"⟩

/-- Sample source task-definition revision. -/
def sampleTaskDef : TaskDefinition :=
  ⟨"app", 7, "arn:td/app:7", [sampleContainerWeb, sampleContainerSidecar], [], "fields"⟩

/-- Builder input updating only the `web` container to tag `v2`. -/
def sampleInputV2 : GenerateTaskDefinitionInput :=
  ⟨"v2".toList, "app", fun n => n == "web"⟩

/-- Builder input whose target tag `v1` already matches the `web` container. -/
def sampleInputV1 : GenerateTaskDefinitionInput :=
  ⟨"v1".toList, "app", fun n => n == "web"⟩

/-- Client whose calls all succeed, registering revision 8. -/
def okClient : EcsClient :=
  ⟨fun _ => .ok sampleTaskDef,
   fun req => .ok { sampleTaskDef with
                      revision := 8
                      taskDefinitionArn := "arn:td/app:8"
                      containerDefinitions := req.containerDefinitions }⟩

/-- Client whose `DescribeTaskDefinition` call fails. -/
def failDescribeClient : EcsClient :=
  ⟨fun _ => .error "boom", fun _ => .ok sampleTaskDef⟩

/-- Client whose `RegisterTaskDefinition` call fails. -/
def failRegisterClient : EcsClient :=
  ⟨fun _ => .ok sampleTaskDef, fun _ => .error "register boom"⟩

/-- Register request produced for `sampleInputV2` over `sampleTaskDef`. -/
def sampleRegisterReq : RegisterTaskDefinitionInput :=
  ⟨[⟨"web", "repo/app:v2".toList, "cpu=256"⟩, sampleContainerSidecar], "app", none, "fields"⟩

/-- Stopped task with one zero and one non-zero container exit code. -/
def stoppedTaskMixed : EcsTask :=
  ⟨"arn:task/1", "STOPPED", "STOPPED",
   [⟨some "a", some 0, none⟩, ⟨some "b", some 1, none⟩], some "exited"⟩

/-- Stopped task whose containers all report exit code zero. -/
def stoppedTaskZero : EcsTask :=
  ⟨"arn:task/2", "STOPPED", "STOPPED",
   [⟨some "a", some 0, none⟩, ⟨some "b", some 0, none⟩], some "exited"⟩

/-- Stopped task none of whose containers report any exit code. -/
def stoppedTaskNoCodes : EcsTask :=
  ⟨"arn:task/3", "STOPPED", "STOPPED",
   [⟨some "a", none, none⟩, ⟨some "b", none, none⟩], some "exited"⟩

/-- Service observation with an in-progress primary and an active deployment. -/
def svcObservation1 : EcsService :=
  ⟨"api", "ACTIVE", [⟨"d1", "PRIMARY", "IN_PROGRESS"⟩, ⟨"d2", "ACTIVE", "COMPLETED"⟩]⟩

/-- Service observation where the primary completed and the active deployment
disappeared. -/
def svcObservation2 : EcsService :=
  ⟨"api", "ACTIVE", [⟨"d1", "PRIMARY", "COMPLETED"⟩]⟩

/-- Live service profile whose managed-tags and execute-command flags differ. -/
def sampleServiceProfile : EcsServiceProfile :=
  ⟨"api", "cps", "arn:cluster/main", "depconf", 3, true, false, some 30,
   "lbs", "netconf", "pcs", "ps", "1.4.0", "SERVICE", "regs", "arn:td/app:7"⟩

/-! ## Helper lemmas -/

theorem isPrefixOf_self (l : List Char) : l.isPrefixOf l = true := by
  induction l with
  | nil => rfl
  | cons a as ih => simp [List.isPrefixOf, ih]

theorem stringsReplaceOnce_no_occ_append (old new pre suf : List Char)
    (hocc : ∀ k, k < pre.length → old.isPrefixOf ((pre ++ suf).drop k) = false)
    (hpf : old.isPrefixOf suf = true) :
    stringsReplaceOnce old new (pre ++ suf) = pre ++ new ++ suf.drop old.length := by
  induction pre with
  | nil =>
    cases suf with
    | nil =>
      have hold : old = [] := by
        cases old with
        | nil => rfl
        | cons a as => simp [List.isPrefixOf] at hpf
      subst hold
      simp [stringsReplaceOnce]
    | cons c rest =>
      simp [stringsReplaceOnce, hpf]
  | cons c pre' ih =>
    have h0 : old.isPrefixOf (c :: (pre' ++ suf)) = false := by
      have := hocc 0 (by simp)
      simpa using this
    have hstep : stringsReplaceOnce old new ((c :: pre') ++ suf) =
        c :: stringsReplaceOnce old new (pre' ++ suf) := by
      show stringsReplaceOnce old new (c :: (pre' ++ suf)) = _
      rw [stringsReplaceOnce]
      simp [h0]
    rw [hstep, ih (fun k hk => by simpa using hocc (k + 1) (by simpa using hk)) ]
    simp

theorem tagSplit_append (pre tag : List Char)
    (h1 : ':' ∉ tag) (h2 : '/' ∉ tag) :
    tagSplit (pre ++ ':' :: tag) = some (pre, tag) := by
  induction pre with
  | nil =>
    show tagSplit (':' :: tag) = some ([], tag)
    rw [tagSplit]
    simp [h1, h2]
  | cons c pre' ih =>
    show tagSplit (c :: (pre' ++ ':' :: tag)) = some (c :: pre', tag)
    rw [tagSplit]
    have hcond : ¬ (c = ':' ∧ ':' ∉ pre' ++ ':' :: tag ∧ '/' ∉ pre' ++ ':' :: tag) := by
      rintro ⟨-, hno, -⟩
      exact hno (by simp)
    rw [if_neg hcond, ih]
    rfl

theorem dockerImageTag_append (pre tag : List Char)
    (h1 : ':' ∉ tag) (h2 : '/' ∉ tag) (h3 : tag ≠ []) :
    dockerImageTag (pre ++ ':' :: tag) = some tag := by
  unfold dockerImageTag
  rw [if_neg (by simp), tagSplit_append pre tag h1 h2]
  simp [h3]

theorem updateContainers_noop (upd : String → Bool) (tag : List Char)
    (cs : List ContainerDefinition)
    (h : ∀ c ∈ cs, upd c.name = true → dockerImageTag c.image = some tag) :
    updateContainers upd tag cs = some (cs, false) := by
  induction cs with
  | nil => rfl
  | cons c cs ih =>
    have ih' := ih fun c' hc' => h c' (List.mem_cons_of_mem _ hc')
    by_cases hu : upd c.name = true
    · have htag := h c (List.mem_cons_self _ _) hu
      simp [updateContainers, updateContainerImage, hu, htag, ih']
    · simp [updateContainers, updateContainerImage, hu, ih']

theorem updateContainers_forall₂ (upd : String → Bool) (tag : List Char)
    (cs cs' : List ContainerDefinition) (b : Bool)
    (h : updateContainers upd tag cs = some (cs', b)) :
    List.Forall₂ (fun c c' =>
      (upd c.name = false → c' = c) ∧ c'.name = c.name ∧ c'.rest = c.rest) cs cs' := by
  induction cs generalizing cs' b with
  | nil =>
    simp only [updateContainers, Option.some.injEq, Prod.mk.injEq] at h
    rw [← h.1]
    exact List.Forall₂.nil
  | cons c cs ih =>
    rw [updateContainers] at h
    cases hstep : updateContainerImage upd tag c with
    | none => rw [hstep] at h; cases h
    | some cb =>
      rw [hstep] at h
      cases hrest : updateContainers upd tag cs with
      | none => rw [hrest] at h; cases h
      | some csb =>
        rw [hrest] at h
        dsimp only at h
        have hcs' : cs' = cb.1 :: csb.1 := by
          cases h; rfl
        subst hcs'
        refine List.Forall₂.cons ?_ (ih _ _ hrest)
        rw [updateContainerImage] at hstep
        by_cases hu : upd c.name = true
        · rw [if_neg (by simp [hu])] at hstep
          cases hparse : dockerImageTag c.image with
          | none => rw [hparse] at hstep; cases hstep
          | some oldTag =>
            rw [hparse] at hstep
            dsimp only at hstep
            by_cases heq : oldTag = tag
            · rw [if_pos heq] at hstep
              have hc : cb.1 = c := by cases hstep; rfl
              exact ⟨fun _ => hc, by rw [hc], by rw [hc]⟩
            · rw [if_neg heq] at hstep
              have hc : cb.1 = { c with image := stringsReplaceOnce oldTag tag c.image } := by
                cases hstep; rfl
              exact ⟨fun hfalse => absurd hu (by rw [hfalse]; exact Bool.false_ne_true), by rw [hc], by rw [hc]⟩
        · rw [if_pos (by simpa using hu)] at hstep
          have hc : cb.1 = c := by cases hstep; rfl
          exact ⟨fun _ => hc, by rw [hc], by rw [hc]⟩

theorem taskHasNonZeroExit_iff (cs : List EcsContainer) :
    taskHasNonZeroExit cs = true ↔
      ∃ c ∈ cs, ∃ code : Int, c.exitCode = some code ∧ code ≠ 0 := by
  rw [taskHasNonZeroExit, List.any_eq_true]
  constructor
  · rintro ⟨c, hc, hb⟩
    refine ⟨c, hc, ?_⟩
    cases hec : c.exitCode with
    | none => rw [hec] at hb; simp at hb
    | some code =>
      rw [hec] at hb
      exact ⟨code, rfl, by simpa using hb⟩
  · rintro ⟨c, hc, code, hsome, hne⟩
    refine ⟨c, hc, ?_⟩
    rw [hsome]
    simpa using hne

theorem watchService_pos (l : List DescribeServicesPoll) (n : Nat)
    (h : watchService l = some n) : 1 ≤ n := by
  induction l generalizing n with
  | nil => simp [watchService] at h
  | cons p rest ih =>
    cases p with
    | failure e =>
      simp [watchService] at h
      omega
    | result svcs =>
      cases svcs with
      | nil =>
        simp [watchService] at h
        omega
      | cons s others =>
        rw [watchService] at h
        by_cases hdone : serviceRolloutDone s.deployments = true
        · rw [if_pos hdone] at h
          have := Option.some.inj h
          omega
        · rw [if_neg hdone] at h
          obtain ⟨m, hm, hm1⟩ := Option.map_eq_some'.mp h
          omega

theorem watchService_found_iff (ss : List EcsService) (n : Nat) :
    watchService (ss.map fun s => DescribeServicesPoll.result [s]) = some (n + 1) ↔
      (ss[n]?.map fun s => serviceRolloutDone s.deployments) = some true ∧
      ∀ j, j < n → (ss[j]?.map fun s => serviceRolloutDone s.deployments) = some false := by
  induction ss generalizing n with
  | nil => simp [watchService]
  | cons s ss ih =>
    have hstep : watchService ((s :: ss).map fun s => DescribeServicesPoll.result [s]) =
        if serviceRolloutDone s.deployments then some 1
        else (watchService (ss.map fun s => DescribeServicesPoll.result [s])).map (· + 1) := rfl
    by_cases hdone : serviceRolloutDone s.deployments = true
    · rw [hstep, if_pos hdone]
      cases n with
      | zero => simp [hdone]
      | succ k =>
        constructor
        · intro h
          exact absurd (Option.some.inj h) (by omega)
        · rintro ⟨-, hall⟩
          have h0 := hall 0 (Nat.succ_pos _)
          simp [hdone] at h0
    · have hfalse : serviceRolloutDone s.deployments = false := by simpa using hdone
      rw [hstep, if_neg hdone]
      cases n with
      | zero =>
        constructor
        · intro h
          obtain ⟨m, hm, hm1⟩ := Option.map_eq_some'.mp h
          have hm0 : m = 0 := by omega
          exact absurd (watchService_pos _ _ hm) (by omega)
        · rintro ⟨h0, -⟩
          simp [hfalse] at h0
      | succ k =>
        have hinj : (watchService (ss.map fun s => DescribeServicesPoll.result [s])).map (· + 1) =
            some (k + 1 + 1) ↔
            watchService (ss.map fun s => DescribeServicesPoll.result [s]) = some (k + 1) := by
          constructor
          · intro h
            obtain ⟨m, hm, hm1⟩ := Option.map_eq_some'.mp h
            have hmk : m = k + 1 := by omega
            rw [← hmk]
            exact hm
          · intro h
            rw [h]
            rfl
        rw [hinj, ih k]
        constructor
        · rintro ⟨hk, hall⟩
          refine ⟨by simpa using hk, ?_⟩
          intro j hj
          cases j with
          | zero => simp [hfalse]
          | succ j' => simpa using hall j' (by omega)
        · rintro ⟨hk, hall⟩
          refine ⟨by simpa using hk, ?_⟩
          intro j hj
          simpa using hall (j + 1) (by omega)

/-! ## Claim theorems -/

/-- C1: for every run of `GenerateTaskDefinition` over a fetched source
revision that builds a register request, the request copies the family, the
tags and the verbatim top-level fields from the source; every container whose
name is not in the updatable set is byte-identical to the source container,
and on updatable containers every field other than `image` (name and all
pass-through fields) is byte-identical to the source. -/
theorem generateTaskDefinition_selective_patch
    (input : GenerateTaskDefinitionInput) (client : EcsClient)
    (td : TaskDefinition) (req : RegisterTaskDefinitionInput)
    (hfetch : client.describeTaskDefinition input.taskDefinition = .ok td)
    (hreq : (GenerateTaskDefinition input client).registerRequest = some req) :
    req.family = td.family ∧ req.rest = td.rest ∧
    req.tags = (if td.tags = [] then none else some td.tags) ∧
    List.Forall₂ (fun c c' =>
      (input.updateableContainers c.name = false → c' = c) ∧
      c'.name = c.name ∧ c'.rest = c.rest)
      td.containerDefinitions req.containerDefinitions := by
  rw [GenerateTaskDefinition, hfetch] at hreq
  dsimp only at hreq
  cases hup : updateContainers input.updateableContainers input.imageTag
      td.containerDefinitions with
  | none => rw [hup] at hreq; cases hreq
  | some p =>
    obtain ⟨cds, updated⟩ := p
    rw [hup] at hreq
    dsimp only at hreq
    cases updated with
    | false => cases hreq
    | true =>
      have hreq' : req = buildRegisterInput td cds := by
        cases hr : client.registerTaskDefinition (buildRegisterInput td cds) with
        | error e => rw [hr] at hreq; exact (Option.some.inj hreq).symm
        | ok newTd => rw [hr] at hreq; exact (Option.some.inj hreq).symm
      subst hreq'
      exact ⟨rfl, rfl, rfl, updateContainers_forall₂ _ _ _ _ _ hup⟩

/-- Witness: the selective-patch theorem applied to a concrete run updating
only the `web` container of `sampleTaskDef` to tag `v2`. -/
theorem generateTaskDefinition_selective_patch_witness :
    sampleRegisterReq.family = sampleTaskDef.family ∧
    sampleRegisterReq.rest = sampleTaskDef.rest ∧
    sampleRegisterReq.tags = (if sampleTaskDef.tags = [] then none else some sampleTaskDef.tags) ∧
    List.Forall₂ (fun c c' =>
      (sampleInputV2.updateableContainers c.name = false → c' = c) ∧
      c'.name = c.name ∧ c'.rest = c.rest)
      sampleTaskDef.containerDefinitions sampleRegisterReq.containerDefinitions :=
  generateTaskDefinition_selective_patch sampleInputV2 okClient sampleTaskDef
    sampleRegisterReq rfl (by decide)

/-- C2: when every updatable container's current image tag already equals the
target tag, `GenerateTaskDefinition` returns `(nil, false)` and performs no
`RegisterTaskDefinition` call. -/
theorem generateTaskDefinition_noop
    (input : GenerateTaskDefinitionInput) (client : EcsClient) (td : TaskDefinition)
    (hfetch : client.describeTaskDefinition input.taskDefinition = .ok td)
    (hsame : ∀ c ∈ td.containerDefinitions, input.updateableContainers c.name = true →
      dockerImageTag c.image = some input.imageTag) :
    GenerateTaskDefinition input client = ⟨.noChange, false, none⟩ := by
  rw [GenerateTaskDefinition, hfetch]
  dsimp only
  rw [updateContainers_noop _ _ _ hsame]
  rfl

/-- Witness: the no-op theorem applied to a concrete run whose target tag `v1`
matches the updatable `web` container's current tag. -/
theorem generateTaskDefinition_noop_witness :
    GenerateTaskDefinition sampleInputV1 okClient = ⟨.noChange, false, none⟩ :=
  generateTaskDefinition_noop sampleInputV1 okClient sampleTaskDef rfl (by decide)

/-- C3: evaluation of the builder at the failing inputs.  When
`DescribeTaskDefinition` fails, and likewise when `RegisterTaskDefinition`
fails, `GenerateTaskDefinition` reaches `logger.Fatalf` — modelled as the
`fatalExit` outcome — which logs and exits the whole process with a non-zero
status instead of returning the error to the caller as a failure of that
single deployment unit. -/
theorem generateTaskDefinition_fatal_on_call_failure :
    GenerateTaskDefinition sampleInputV2 failDescribeClient =
      ⟨.fatalExit "boom", false, none⟩ ∧
    GenerateTaskDefinition sampleInputV2 failRegisterClient =
      ⟨.fatalExit "register boom", true, some sampleRegisterReq⟩ := by decide

/-- C4: on a task observed in the `STOPPED` terminal state, `watchTask`
returns the "prematurely stopped" failure if and only if some container
reports a non-zero exit code, and returns without error when every container
reports exit code zero. -/
theorem watchTask_stopped_classification (t : EcsTask) (rest : List DescribeTasksPoll)
    (h : t.lastStatus = "STOPPED") :
    (watchTask (.result [t] :: rest) = some .prematurelyStopped ↔
      ∃ c ∈ t.containers, ∃ code : Int, c.exitCode = some code ∧ code ≠ 0) ∧
    ((∀ c ∈ t.containers, c.exitCode = some 0) →
      watchTask (.result [t] :: rest) = some .completed) := by
  have hw : watchTask (.result [t] :: rest) =
      if taskHasNonZeroExit t.containers then some .prematurelyStopped
      else some .completed := by
    rw [watchTask, if_pos h]
  constructor
  · rw [hw]
    by_cases hnz : taskHasNonZeroExit t.containers = true
    · rw [if_pos hnz]
      exact ⟨fun _ => (taskHasNonZeroExit_iff _).mp hnz, fun _ => rfl⟩
    · rw [if_neg hnz]
      constructor
      · intro hEq
        exact absurd hEq (by decide)
      · intro hex
        exact absurd ((taskHasNonZeroExit_iff _).mpr hex) hnz
  · intro hall
    rw [hw, if_neg ?_]
    intro hnz
    obtain ⟨c, hc, code, hsome, hne⟩ := (taskHasNonZeroExit_iff _).mp hnz
    rw [hall c hc] at hsome
    injection hsome with h0
    exact hne h0.symm

/-- Witness: the stopped-task classification at the spec's two concrete tasks,
one with exit codes `[0, 1]` (failed) and one with `[0, 0]` (succeeded). -/
theorem watchTask_stopped_classification_witness :
    watchTask [.result [stoppedTaskMixed]] = some .prematurelyStopped ∧
    watchTask [.result [stoppedTaskZero]] = some .completed := by
  constructor
  · exact (watchTask_stopped_classification stoppedTaskMixed [] rfl).1.mpr
      ⟨⟨some "b", some 1, none⟩, by decide, 1, rfl, by decide⟩
  · exact (watchTask_stopped_classification stoppedTaskZero [] rfl).2 (by decide)

/-- C5 (amended): when `DescribeTasks` returns zero tasks, `watchTask` logs
"stopped watching, task not found", breaks out of the loop and returns `nil`:
the disappearance is treated as a normal end of the watch, not as a failure of
the unit. -/
theorem watchTask_not_found_returns_nil (rest : List DescribeTasksPoll) :
    watchTask (.result [] :: rest) = some .completed ∧
    isWatchFailure .completed = false :=
  ⟨rfl, rfl⟩

/-- C5 counterexample: on the concrete poll trace whose single observation
returns zero tasks, `watchTask` returns the no-error outcome, which
`deployTask` does not count as a failure — refuting the claim that the
disappearance is treated as an immediate failure of the unit. -/
theorem watchTask_not_found_cex :
    watchTask [DescribeTasksPoll.result []] = some WatchTaskResult.completed ∧
    isWatchFailure WatchTaskResult.completed = false := by decide

/-- C6: over a trace of single-service observations, the `watchService` loop
terminates at observation `n + 1` exactly when that observation is the first
whose deployment list contains a `PRIMARY` deployment with rollout state
`COMPLETED` and no `ACTIVE` deployment; in the concrete scenario transitioning
from `[{PRIMARY, IN_PROGRESS}, {ACTIVE}]` to `[{PRIMARY, COMPLETED}]`, the
loop is still running after the first observation and terminates exactly on
the second. -/
theorem watchService_termination :
    (∀ (ss : List EcsService) (n : Nat),
      watchService (ss.map fun s => DescribeServicesPoll.result [s]) = some (n + 1) ↔
        (ss[n]?.map fun s => serviceRolloutDone s.deployments) = some true ∧
        ∀ j, j < n → (ss[j]?.map fun s => serviceRolloutDone s.deployments) = some false) ∧
    watchService [.result [svcObservation1]] = none ∧
    watchService [.result [svcObservation1], .result [svcObservation2]] = some 2 :=
  ⟨watchService_found_iff, by decide, by decide⟩

/-- Witness: the termination characterization applied to the concrete
two-observation scenario, yielding termination exactly at the second
observation. -/
theorem watchService_termination_witness :
    watchService ([svcObservation1, svcObservation2].map
      fun s => DescribeServicesPoll.result [s]) = some 2 :=
  (watchService_termination.1 [svcObservation1, svcObservation2] 1).mpr (by decide)

/-- C7 (amended): the rewrite replaces the first occurrence of the old tag
substring anywhere in the full reference string; when the old tag does not
occur at any position up to the tag separator, the registry and repository
portion is preserved exactly and the tag portion is replaced, with the old
tag returned.  The claim's concrete example satisfies this condition. -/
theorem rewriteTag_first_occurrence (pre tag newTag : List Char)
    (h1 : ':' ∉ tag) (h2 : '/' ∉ tag) (h3 : tag ≠ [])
    (hocc : ∀ k, k ≤ pre.length → tag.isPrefixOf ((pre ++ ':' :: tag).drop k) = false) :
    rewriteTag (pre ++ ':' :: tag) newTag = some (pre ++ ':' :: newTag, tag) := by
  unfold rewriteTag
  rw [dockerImageTag_append pre tag h1 h2 h3]
  dsimp only
  have hocc' : ∀ k, k < (pre ++ [':']).length →
      tag.isPrefixOf (((pre ++ [':']) ++ tag).drop k) = false := by
    intro k hk
    have hk' : k ≤ pre.length := by
      have : k < pre.length + 1 := by simpa using hk
      omega
    simpa [List.append_assoc] using hocc k hk'
  have hrepl := stringsReplaceOnce_no_occ_append tag newTag (pre ++ [':']) tag hocc'
    (isPrefixOf_self tag)
  rw [show (pre ++ [':']) ++ tag = pre ++ ':' :: tag by simp] at hrepl
  rw [hrepl]
  simp

/-- Witness: the first-occurrence rewrite theorem instantiated at the claim's
concrete example. -/
theorem rewriteTag_first_occurrence_witness :
    rewriteTag "123.dkr.ecr.us-east-1.amazonaws.com/app:abc123".toList "def456".toList =
      some ("123.dkr.ecr.us-east-1.amazonaws.com/app:def456".toList, "abc123".toList) := by
  have h := rewriteTag_first_occurrence "123.dkr.ecr.us-east-1.amazonaws.com/app".toList
    "abc123".toList "def456".toList (by decide) (by decide) (by decide) (by decide)
  exact h

/-- C7 counterexample: on the structurally valid reference
`ecr.example.com/abc/app:abc`, whose tag also occurs inside the repository
path, the rewrite with new tag `def` alters the repository portion and leaves
the tag portion unchanged — refuting the claim that registry and repository
are preserved for every structurally valid reference. -/
theorem rewriteTag_repository_clobbered_cex :
    rewriteTag "ecr.example.com/abc/app:abc".toList "def".toList =
      some ("ecr.example.com/def/app:abc".toList, "abc".toList) ∧
    "ecr.example.com/def/app:abc".toList ≠ "ecr.example.com/abc/app:def".toList := by
  decide

/-- C8: evaluation of the update-request construction at the failing input.
`deployService` copies every field of the live service into the update request
except that `EnableExecuteCommand` is assigned from
`service.EnableECSManagedTags`; on a live service with managed tags enabled
and execute-command disabled, the request's execute-command flag differs from
the live service's. -/
theorem deployService_execute_command_slip :
    (buildUpdateServiceParams sampleServiceProfile none "arn:td/app:8").enableExecuteCommand
      = true ∧
    sampleServiceProfile.enableExecuteCommand = false ∧
    sampleServiceProfile.enableECSManagedTags = true := by decide

/-- C9: for every list of per-unit results, the stage report of `DeployTasks`
satisfies `total = successful + skipped + failed`, because the successful
count is computed as the total minus the failed and skipped counts. -/
theorem deployTasksReport_accounting (results : List (Status × Option String)) :
    (deployTasksReport results).total =
      (deployTasksReport results).successful + (deployTasksReport results).skipped +
        (deployTasksReport results).failed := by
  simp only [deployTasksReport]
  ring

/-- C10: a container whose exit code is absent is never counted as a failure
by the stopped-task inspection, and a stopped task none of whose containers
reports an exit code is classified as a successful stop. -/
theorem watchTask_nil_exit_not_failure :
    (∀ (c : EcsContainer) (cs : List EcsContainer), c.exitCode = none →
      taskHasNonZeroExit (c :: cs) = taskHasNonZeroExit cs) ∧
    (∀ (t : EcsTask) (rest : List DescribeTasksPoll), t.lastStatus = "STOPPED" →
      (∀ c ∈ t.containers, c.exitCode = none) →
      watchTask (.result [t] :: rest) = some .completed) := by
  constructor
  · intro c cs hec
    simp [taskHasNonZeroExit, List.any_cons, hec]
  · intro t rest hstop hall
    have hnz : taskHasNonZeroExit t.containers = false := by
      rw [Bool.eq_false_iff]
      intro hnz
      obtain ⟨c, hc, code, hsome, -⟩ := (taskHasNonZeroExit_iff _).mp hnz
      rw [hall c hc] at hsome
      cases hsome
    rw [watchTask, if_pos hstop, hnz]
    rfl

/-- Witness: the nil-exit-code theorem applied to a concrete stopped task
whose two containers report no exit code at all. -/
theorem watchTask_nil_exit_not_failure_witness :
    watchTask [DescribeTasksPoll.result [stoppedTaskNoCodes]] =
      some WatchTaskResult.completed :=
  watchTask_nil_exit_not_failure.2 stoppedTaskNoCodes [] rfl (by decide)

end EcsToolkit
